import Mathlib

/-!
Shallow embedding of the license-plate recognition core of the `atcs`
repository (files `src/anpr/universal_detector.py`, `src/anpr/detector.py`,
`src/anpr/ocr_model.py`), together with theorems settling the specification
claims about it.

Modelling conventions:
* Python integers are `ℤ` (rectangle coordinates) or `ℕ` (string lengths);
  Python floats appearing in the code (`0.3`, `0.5`, `0.2`, `0.1`, OCR
  confidences) are modelled as exact rationals `ℚ`.  The only float
  comparison on the hot path, `overlap_area > 0.3 * min(area1, area2)` with
  integer operands, agrees with the exact rational comparison
  `10 * overlap > 3 * min` for all pixel-scale integers (the double nearest
  to 0.3 is below 3/10 by a relative error of about 3.7e-17, less than half
  an ulp of any integer product involved), so the rational model is faithful.
* Python strings are modelled as `List Char`.
* Python exceptions are modelled with `Except`: a fallible unit is a
  function into `Except String _`, and a `try/except` block is a `match`.
-/

namespace ATCS

/-- An axis-aligned rectangle `(x, y, w, h)` in pixel coordinates, as the
4-tuples produced by the candidate generators in `universal_detector.py`. -/
structure Rect where
  x : ℤ
  y : ℤ
  w : ℤ
  h : ℤ
deriving DecidableEq, Repr

/-- `w * h`, the `area1 = w1 * h1` of `_remove_overlaps`. -/
def rectArea (r : Rect) : ℤ := r.w * r.h

/-- The overlap area computed at `universal_detector.py:241-243`:
`max(0, min(x1+w1, x2+w2) - max(x1, x2)) * max(0, min(y1+h1, y2+h2) - max(y1, y2))`. -/
def overlapArea (a b : Rect) : ℤ :=
  max 0 (min (a.x + a.w) (b.x + b.w) - max a.x b.x) *
    max 0 (min (a.y + a.h) (b.y + b.h) - max a.y b.y)

/-- The significance test at `universal_detector.py:249`:
`overlap_area > 0.3 * min(area1, area2)`, in exact rational form
(see the header comment on float faithfulness). -/
def overlapsTooMuch (a b : Rect) : Prop :=
  10 * overlapArea a b > 3 * min (rectArea a) (rectArea b)

instance (a b : Rect) : Decidable (overlapsTooMuch a b) := by
  unfold overlapsTooMuch; infer_instance

/-- The sort key relation of `sorted(candidates, key=lambda x: x[2]*x[3],
reverse=True)`: `a` may precede `b` when `b`'s area is at most `a`'s. -/
def areaGE (a b : Rect) : Prop := rectArea b ≤ rectArea a

instance : DecidableRel areaGE := fun a b => by unfold areaGE; infer_instance

instance : IsTotal Rect areaGE := ⟨fun a b => le_total (rectArea b) (rectArea a)⟩

instance : IsTrans Rect areaGE := ⟨fun _ _ _ h1 h2 => le_trans h2 h1⟩

/-- Sorting by area, largest first (`universal_detector.py:230`).  Python's
`sorted` is stable; `List.insertionSort` with `areaGE` is the same stable
descending sort. -/
def sortByAreaDesc (l : List Rect) : List Rect := List.insertionSort areaGE l

/-- One step of the greedy keep-loop of `_remove_overlaps`
(`universal_detector.py:232-254`): a candidate is appended to the kept list
iff it does not significantly overlap any already-kept rectangle. -/
def keepStep (acc : List Rect) (cand : Rect) : List Rect :=
  if acc.any (fun e => decide (overlapsTooMuch cand e)) then acc else acc ++ [cand]

/-- `UniversalPlateDetector._remove_overlaps`
(`universal_detector.py:224-256`): sort by area descending, then greedily
keep candidates that do not overlap a kept one by more than 30% of the
smaller area. -/
def remove_overlaps (candidates : List Rect) : List Rect :=
  (sortByAreaDesc candidates).foldl keepStep []

/-- The kept-pair property asserted by claim C1: the overlap of two kept
rectangles is at most 0.3 of the smaller area (exact form `10·ov ≤ 3·min`). -/
def overlapBounded (a b : Rect) : Prop :=
  10 * overlapArea a b ≤ 3 * min (rectArea a) (rectArea b)

theorem overlapArea_comm (a b : Rect) : overlapArea a b = overlapArea b a := by
  unfold overlapArea
  rw [min_comm (a.x + a.w), max_comm a.x, min_comm (a.y + a.h), max_comm a.y]

theorem overlapBounded_symm {a b : Rect} (h : overlapBounded a b) : overlapBounded b a := by
  unfold overlapBounded at h ⊢
  rw [overlapArea_comm b a, min_comm (rectArea b)]
  exact h

/-- Each `keepStep` preserves pairwise boundedness of the accumulator. -/
theorem keepStep_pairwise {acc : List Rect} (cand : Rect)
    (h : acc.Pairwise overlapBounded) : (keepStep acc cand).Pairwise overlapBounded := by
  unfold keepStep
  by_cases hany : acc.any (fun e => decide (overlapsTooMuch cand e)) = true
  · simp [hany, h]
  · rw [if_neg hany, List.pairwise_append]
    refine ⟨h, List.pairwise_singleton _ _, ?_⟩
    intro e he c hc
    rcases List.mem_singleton.mp hc with rfl
    have hne : ¬ overlapsTooMuch c e := by
      intro hov
      exact hany (List.any_eq_true.mpr ⟨e, he, by simpa using hov⟩)
    have : overlapBounded c e := le_of_not_lt hne
    exact overlapBounded_symm this

theorem foldl_keepStep_pairwise (l : List Rect) (acc : List Rect)
    (h : acc.Pairwise overlapBounded) : (l.foldl keepStep acc).Pairwise overlapBounded := by
  induction l generalizing acc with
  | nil => exact h
  | cons c cs ih => exact ih _ (keepStep_pairwise c h)

/-- C1: in the list kept by the universal detector's overlap remover, no two
retained rectangles (from a candidate list of rectangles with positive width
and height) have an overlap area exceeding 0.3 of the smaller of their areas. -/
theorem overlap_remover_keeps_no_significant_overlap (candidates : List Rect)
    (hpos : ∀ r ∈ candidates, 0 < r.w ∧ 0 < r.h) :
    (remove_overlaps candidates).Pairwise overlapBounded := by
  unfold remove_overlaps
  exact foldl_keepStep_pairwise _ _ List.Pairwise.nil

/-- Witness for C1 at a concrete candidate list: two heavily overlapping
boxes and one disjoint box. -/
theorem overlap_remover_keeps_no_significant_overlap_witness :
    (∀ r ∈ [Rect.mk 0 0 4 4, Rect.mk 1 1 4 4, Rect.mk 10 10 3 2], 0 < r.w ∧ 0 < r.h) ∧
      (remove_overlaps [Rect.mk 0 0 4 4, Rect.mk 1 1 4 4, Rect.mk 10 10 3 2]).Pairwise
        overlapBounded :=
  ⟨by decide, overlap_remover_keeps_no_significant_overlap _ (by decide)⟩

/-- Strict version of the sort relation: `b`'s area strictly below `a`'s. -/
def areaGT (a b : Rect) : Prop := rectArea b < rectArea a

instance : IsAntisymm Rect areaGT :=
  ⟨fun _ _ h1 h2 => absurd h1 (lt_asymm h2)⟩

/-- A list sorted by `areaGE` whose areas are pairwise distinct is sorted by
the strict relation `areaGT`. -/
theorem sorted_areaGT_of_distinct {l : List Rect}
    (hs : List.Sorted areaGE l)
    (hd : l.Pairwise fun a b => rectArea a ≠ rectArea b) :
    List.Sorted areaGT l :=
  hs.imp₂ (fun _ _ h1 h2 => lt_of_le_of_ne h1 fun he => h2 he.symm) hd

/-- Sorting by descending area is order-independent once areas are pairwise
distinct: any two permutations sort to the same list. -/
theorem sortByAreaDesc_perm_eq {l1 l2 : List Rect} (hp : l1.Perm l2)
    (hd : l1.Pairwise fun a b => rectArea a ≠ rectArea b) :
    sortByAreaDesc l1 = sortByAreaDesc l2 := by
  have hd2 : l2.Pairwise fun a b => rectArea a ≠ rectArea b :=
    (List.Perm.pairwise_iff (fun h => Ne.symm h) hp).mp hd
  have hs1 : List.Sorted areaGT (sortByAreaDesc l1) :=
    sorted_areaGT_of_distinct (List.sorted_insertionSort areaGE l1)
      ((List.Perm.pairwise_iff (fun h => Ne.symm h)
        (List.perm_insertionSort areaGE l1)).mpr hd)
  have hs2 : List.Sorted areaGT (sortByAreaDesc l2) :=
    sorted_areaGT_of_distinct (List.sorted_insertionSort areaGE l2)
      ((List.Perm.pairwise_iff (fun h => Ne.symm h)
        (List.perm_insertionSort areaGE l2)).mpr hd2)
  have hperm : (sortByAreaDesc l1).Perm (sortByAreaDesc l2) :=
    ((List.perm_insertionSort areaGE l1).trans hp).trans
      (List.perm_insertionSort areaGE l2).symm
  exact List.eq_of_perm_of_sorted hperm hs1 hs2

/-- C7: for two input orderings of the same candidate multiset whose
rectangles have pairwise-distinct areas (so area tie-breaking never arises),
the deduplicator keeps exactly the same list. -/
theorem remove_overlaps_order_independent {l1 l2 : List Rect} (hp : l1.Perm l2)
    (hd : l1.Pairwise fun a b => rectArea a ≠ rectArea b) :
    remove_overlaps l1 = remove_overlaps l2 := by
  unfold remove_overlaps
  rw [sortByAreaDesc_perm_eq hp hd]

/-- Witness for C7 at a concrete pair of orderings of a two-element multiset. -/
theorem remove_overlaps_order_independent_witness :
    ([Rect.mk 0 0 4 4, Rect.mk 2 0 5 4].Perm [Rect.mk 2 0 5 4, Rect.mk 0 0 4 4]) ∧
      remove_overlaps [Rect.mk 0 0 4 4, Rect.mk 2 0 5 4] =
        remove_overlaps [Rect.mk 2 0 5 4, Rect.mk 0 0 4 4] :=
  ⟨by decide, remove_overlaps_order_independent (by decide) (by decide)⟩

/-! ### Text normalisation and grammar validation (`ocr_model.validate_plate_text`)

The Lean function takes the text after the Unicode NFKD normalisation of
`ocr_model.py:86` (NFKD is an opaque external function applied first; every
claim quantifies over all inputs, so quantifying over all post-NFKD strings
is equivalent).  Uppercasing is modelled for ASCII letters, the case the
subsequent `[A-Z0-9]` filters can ever retain. -/

/-- The `text_replacements` dictionary of `ocr_model.py:89-108`, in source
order.  Each key is a single character and no substitution output is a later
key, so the source's sequence of `str.replace` calls equals one simultaneous
character map through this table. -/
def replaceTable : List (Char × Char) :=
  [ ('·', ' '), ('•', ' '), ('‧', ' '),
    ('−', '-'), ('–', '-'), ('—', '-'),
    ('О', 'O'), ('А', 'A'), ('В', 'B'), ('Е', 'E'), ('Н', 'H'),
    ('І', 'I'), ('Р', 'P'), ('С', 'C'), ('Т', 'T'), ('Х', 'X'),
    ('0', 'O'), ('1', 'I') ]

/-- Apply the substitution table to one character. -/
def replaceChar (c : Char) : Char :=
  match replaceTable.find? (fun p => p.1 = c) with
  | some p => p.2
  | none => c

/-- The lowercase→uppercase character table of ASCII. -/
def upperTable : List (Char × Char) :=
  [ ('a', 'A'), ('b', 'B'), ('c', 'C'), ('d', 'D'), ('e', 'E'), ('f', 'F'),
    ('g', 'G'), ('h', 'H'), ('i', 'I'), ('j', 'J'), ('k', 'K'), ('l', 'L'),
    ('m', 'M'), ('n', 'N'), ('o', 'O'), ('p', 'P'), ('q', 'Q'), ('r', 'R'),
    ('s', 'S'), ('t', 'T'), ('u', 'U'), ('v', 'V'), ('w', 'W'), ('x', 'X'),
    ('y', 'Y'), ('z', 'Z') ]

/-- ASCII uppercasing, the `text.upper()` of `ocr_model.py:114` restricted to
the characters the later `[A-Z0-9]` filters can retain. -/
def upperChar (c : Char) : Char :=
  match upperTable.find? (fun p => p.1 = c) with
  | some p => p.2
  | none => c

/-- `[A-Z]`. -/
def isLetterAZ (c : Char) : Bool := decide ('A' ≤ c) && decide (c ≤ 'Z')

/-- `[0-9]`. -/
def isDigit09 (c : Char) : Bool := decide ('0' ≤ c) && decide (c ≤ '9')

/-- ASCII whitespace, for the `\s` class and `str.strip()`. -/
def isSpaceChar (c : Char) : Bool := c = ' ' || c = '\t' || c = '\n' || c = '\r'

/-- The class kept by `re.sub(r'[^A-Z0-9\s\-]', '', text)` at `ocr_model.py:118`. -/
def isStructChar (c : Char) : Bool := isLetterAZ c || isDigit09 c || isSpaceChar c || c = '-'

/-- The class kept by `re.sub(r'[^A-Z0-9]', '', structured_text)` at `ocr_model.py:121`. -/
def isPlateChar (c : Char) : Bool := isLetterAZ c || isDigit09 c

/-- Substitution table followed by uppercasing (`ocr_model.py:110-114`). -/
def normalizeChars (t : List Char) : List Char := t.map fun c => upperChar (replaceChar c)

/-- The `structured_text` of `ocr_model.py:118`. -/
def structuredChars (t : List Char) : List Char := (normalizeChars t).filter isStructChar

/-- The `cleaned` string of `ocr_model.py:121`. -/
def cleanedChars (t : List Char) : List Char := (structuredChars t).filter isPlateChar

/-- Python `str.strip()`: drop leading and trailing whitespace. -/
def trimChars (cs : List Char) : List Char :=
  ((cs.dropWhile isSpaceChar).reverse.dropWhile isSpaceChar).reverse

/-- A character class appearing in the plate grammars. -/
inductive CClass
  | letter
  | digit
deriving DecidableEq, Repr

/-- Membership of a character in a class. -/
def charIn : CClass → Char → Bool
  | .letter, c => isLetterAZ c
  | .digit, c => isDigit09 c

/-- One bounded run `[class]{lo,hi}` of a plate grammar. -/
structure Run where
  cls : CClass
  lo : ℕ
  hi : ℕ
deriving DecidableEq, Repr

/-- Consume exactly `k` characters of class `cl`, or fail. -/
def dropClass (cl : CClass) : ℕ → List Char → Option (List Char)
  | 0, cs => some cs
  | _ + 1, [] => none
  | k + 1, c :: cs => if charIn cl c then dropClass cl k cs else none

/-- Anchored matching of a sequence of bounded class runs, the semantics of
the `re.match(r'^...$', cleaned)` calls for the patterns of
`ocr_model.py:124-145` (a concatenation of character-class repetitions
matches iff some split of the string realises every run's bounds). -/
def matchRuns : List Run → List Char → Bool
  | [], cs => cs.isEmpty
  | r :: rest, cs =>
    (List.range (r.hi + 1)).any fun k =>
      decide (r.lo ≤ k) &&
        match dropClass r.cls k cs with
        | some cs2 => matchRuns rest cs2
        | none => false

/-- The grammar table of `ocr_model.py:124-145`, in source order. -/
def patterns : List (List Run) :=
  [ [⟨.letter, 2, 2⟩, ⟨.digit, 2, 2⟩, ⟨.letter, 3, 3⟩],
    [⟨.letter, 1, 2⟩, ⟨.digit, 3, 4⟩, ⟨.letter, 1, 2⟩],
    [⟨.letter, 1, 1⟩, ⟨.digit, 1, 3⟩, ⟨.letter, 3, 3⟩],
    [⟨.letter, 2, 2⟩, ⟨.digit, 2, 2⟩, ⟨.letter, 3, 3⟩],
    [⟨.letter, 2, 3⟩, ⟨.digit, 3, 4⟩],
    [⟨.digit, 3, 3⟩, ⟨.letter, 3, 3⟩],
    [⟨.letter, 2, 3⟩, ⟨.digit, 3, 4⟩, ⟨.letter, 0, 2⟩],
    [⟨.letter, 1, 3⟩, ⟨.digit, 1, 4⟩, ⟨.letter, 0, 3⟩],
    [⟨.digit, 1, 4⟩, ⟨.letter, 1, 4⟩, ⟨.digit, 0, 4⟩],
    [⟨.letter, 1, 2⟩, ⟨.digit, 4, 6⟩],
    [⟨.digit, 4, 6⟩, ⟨.letter, 1, 2⟩] ]

/-- The `for pattern in patterns: if re.match(...)` loop condition. -/
def matchesAnyPattern (cs : List Char) : Bool := patterns.any fun p => matchRuns p cs

/-- Index of the first grammar the cleaned string matches — the
`matchedGrammar` notion of the specification, derived from the loop order. -/
def firstMatchedGrammar (cs : List Char) : Option ℕ := patterns.findIdx? fun p => matchRuns p cs

/-- `re.search(r'[A-Z]', cleaned)` as a Boolean. -/
def hasLetterChar (cs : List Char) : Bool := cs.any (charIn .letter)

/-- `re.search(r'[0-9]', cleaned)` as a Boolean. -/
def hasDigitChar (cs : List Char) : Bool := cs.any (charIn .digit)

/-- `ocr_model.validate_plate_text` (`ocr_model.py:77-163`) on the
post-NFKD text: returns `(is_valid, structured_text.strip())`. -/
def validate_plate_text (t : List Char) : Bool × List Char :=
  if t.isEmpty then (false, [])
  else
    let structured := structuredChars t
    let cleaned := cleanedChars t
    if cleaned.length < 4 ∨ 9 < cleaned.length then (false, trimChars structured)
    else if matchesAnyPattern cleaned then (true, trimChars structured)
    else if hasLetterChar cleaned && hasDigitChar cleaned &&
        decide (4 ≤ cleaned.length) && decide (cleaned.length ≤ 9) then
      (true, trimChars structured)
    else (false, trimChars structured)

/-- C2: an input whose cleaned form is shorter than 4 or longer than 9
characters is always rejected. -/
theorem validation_rejects_bad_length (t : List Char)
    (h : (cleanedChars t).length < 4 ∨ 9 < (cleanedChars t).length) :
    (validate_plate_text t).1 = false := by
  unfold validate_plate_text
  by_cases ht : t.isEmpty
  · simp [ht]
  · simp [ht, h]

/-- Witness for C2 at the concrete input "AB1" (cleaned form "ABI", length 3). -/
theorem validation_rejects_bad_length_witness :
    ((cleanedChars ['A', 'B', '1']).length < 4 ∨ 9 < (cleanedChars ['A', 'B', '1']).length) ∧
      (validate_plate_text ['A', 'B', '1']).1 = false :=
  ⟨by decide, validation_rejects_bad_length _ (by decide)⟩

theorem replaceChar_ne_digits (c : Char) : replaceChar c ≠ '0' ∧ replaceChar c ≠ '1' := by
  cases hf : replaceTable.find? (fun p => p.1 = c) with
  | none =>
    have h := List.find?_eq_none.mp hf
    have h0 : c ≠ '0' := by
      intro hc
      have := h ('0', 'O') (by decide)
      simp [hc] at this
    have h1 : c ≠ '1' := by
      intro hc
      have := h ('1', 'I') (by decide)
      simp [hc] at this
    simpa only [replaceChar, hf] using And.intro h0 h1
  | some p =>
    have hp : p ∈ replaceTable := List.mem_of_find?_eq_some hf
    have hall : ∀ q ∈ replaceTable, q.2 ≠ '0' ∧ q.2 ≠ '1' := by decide
    simpa only [replaceChar, hf] using hall p hp

theorem upperChar_ne_digits {c : Char} (h0 : c ≠ '0') (h1 : c ≠ '1') :
    upperChar c ≠ '0' ∧ upperChar c ≠ '1' := by
  cases hf : upperTable.find? (fun p => p.1 = c) with
  | none => simpa only [upperChar, hf] using And.intro h0 h1
  | some p =>
    have hp : p ∈ upperTable := List.mem_of_find?_eq_some hf
    have hall : ∀ q ∈ upperTable, q.2 ≠ '0' ∧ q.2 ≠ '1' := by decide
    simpa only [upperChar, hf] using hall p hp

theorem normalizeChars_ne_digits {t : List Char} {c : Char} (hc : c ∈ normalizeChars t) :
    c ≠ '0' ∧ c ≠ '1' := by
  rcases List.mem_map.mp hc with ⟨d, _, rfl⟩
  exact upperChar_ne_digits (replaceChar_ne_digits d).1 (replaceChar_ne_digits d).2

theorem mem_structuredChars {t : List Char} {c : Char} (hc : c ∈ structuredChars t) :
    c ∈ normalizeChars t :=
  List.mem_of_mem_filter hc

theorem mem_cleanedChars {t : List Char} {c : Char} (hc : c ∈ cleanedChars t) :
    c ∈ normalizeChars t :=
  mem_structuredChars (List.mem_of_mem_filter hc)

theorem mem_trimChars {l : List Char} {c : Char} (hc : c ∈ trimChars l) : c ∈ l := by
  unfold trimChars at hc
  rw [List.mem_reverse] at hc
  have h1 := (List.dropWhile_sublist (l := (l.dropWhile isSpaceChar).reverse)
    (p := isSpaceChar)).mem hc
  rw [List.mem_reverse] at h1
  exact (List.dropWhile_sublist (l := l) (p := isSpaceChar)).mem h1

/-- The second component of `validate_plate_text` is always the trimmed
structured text or empty. -/
theorem validate_snd_cases (t : List Char) :
    (validate_plate_text t).2 = [] ∨
      (validate_plate_text t).2 = trimChars (structuredChars t) := by
  unfold validate_plate_text
  split
  · exact Or.inl rfl
  · dsimp only
    split
    · exact Or.inr rfl
    · split
      · exact Or.inr rfl
      · split
        · exact Or.inr rfl
        · exact Or.inr rfl

/-- C9: the cleaned text used for grammar matching and the text returned by
the validator never contain the characters '0' or '1' — the substitutions
'0'→'O' and '1'→'I' are applied unconditionally before stripping. -/
theorem cleaned_text_free_of_zero_one (t : List Char) :
    ('0' ∉ cleanedChars t ∧ '1' ∉ cleanedChars t) ∧
      ('0' ∉ (validate_plate_text t).2 ∧ '1' ∉ (validate_plate_text t).2) := by
  have hclean : '0' ∉ cleanedChars t ∧ '1' ∉ cleanedChars t := by
    constructor
    · intro h
      exact (normalizeChars_ne_digits (mem_cleanedChars h)).1 rfl
    · intro h
      exact (normalizeChars_ne_digits (mem_cleanedChars h)).2 rfl
  refine ⟨hclean, ?_⟩
  rcases validate_snd_cases t with h | h
  · rw [h]; exact ⟨List.not_mem_nil _, List.not_mem_nil _⟩
  · rw [h]
    constructor
    · intro hm
      exact (normalizeChars_ne_digits (mem_structuredChars (mem_trimChars hm))).1 rfl
    · intro hm
      exact (normalizeChars_ne_digits (mem_structuredChars (mem_trimChars hm))).2 rfl

/-- Counterexample to C3 as stated: the cleaned form of the input "A2"
matches the generic grammar `^[A-Z]{1,3}[0-9]{1,4}[A-Z]{0,3}$` of
`ocr_model.py:141`, yet validation rejects it, because the length gate
(`ocr_model.py:148`) runs before pattern matching and "A2" has only two
cleaned characters. -/
theorem grammar_match_without_validity :
    matchesAnyPattern (cleanedChars ['A', '2']) = true ∧
      (validate_plate_text ['A', '2']).1 = false := by
  constructor
  · decide
  · decide

/-- C3 (amended): if the cleaned form matches a configured grammar AND has
length between 4 and 9, validation accepts and a first matching grammar
exists (the source returns only `(True, structured_text.strip())`; the
matched grammar index is derived from the loop order). -/
theorem grammar_match_in_range_accepted (t : List Char)
    (h4 : 4 ≤ (cleanedChars t).length) (h9 : (cleanedChars t).length ≤ 9)
    (hm : matchesAnyPattern (cleanedChars t) = true) :
    (validate_plate_text t).1 = true ∧ (firstMatchedGrammar (cleanedChars t)).isSome := by
  have ht : t.isEmpty = false := by
    cases t with
    | nil => simp [cleanedChars, structuredChars, normalizeChars] at h4
    | cons c cs => rfl
  constructor
  · unfold validate_plate_text
    rw [if_neg (by simp [ht]), if_neg (by omega), if_pos hm]
  · unfold firstMatchedGrammar
    rw [List.findIdx?_isSome]
    exact hm

/-- Witness for the amended C3 at the concrete input "AB12CDE"
(cleaned form "ABI2CDE", length 7, matching the generic grammar). -/
theorem grammar_match_in_range_accepted_witness :
    (4 ≤ (cleanedChars ['A', 'B', '1', '2', 'C', 'D', 'E']).length) ∧
      ((cleanedChars ['A', 'B', '1', '2', 'C', 'D', 'E']).length ≤ 9) ∧
      (matchesAnyPattern (cleanedChars ['A', 'B', '1', '2', 'C', 'D', 'E']) = true) ∧
      ((validate_plate_text ['A', 'B', '1', '2', 'C', 'D', 'E']).1 = true ∧
        (firstMatchedGrammar (cleanedChars ['A', 'B', '1', '2', 'C', 'D', 'E'])).isSome) :=
  ⟨by decide, by decide, by decide,
    grammar_match_in_range_accepted _ (by decide) (by decide) (by decide)⟩

/-! ### Confidence scorer (`detector.estimate_plate_confidence`) -/

/-- `detector.estimate_plate_confidence` (`detector.py:387-411`): base 0.5,
plus 0.2 for length 4–8, plus 0.2 for mixed letters and digits, plus 0.1 for
region area above 2000, capped at 1.  Float literals as exact rationals. -/
def estimate_plate_confidence (text : List Char) (region_area : ℤ) : ℚ :=
  if text.isEmpty then 0
  else
    let c1 : ℚ := 1 / 2
    let c2 := if 4 ≤ text.length ∧ text.length ≤ 8 then c1 + 1 / 5 else c1
    let c3 := if hasLetterChar text && hasDigitChar text then c2 + 1 / 5 else c2
    let c4 := if 2000 < region_area then c3 + 1 / 10 else c3
    min c4 1

/-- The scorer with the argument list the specification gives it,
`(normalizedPlate, backendConfidence, regionArea)`, as used at the call site
`detector.py:344`: the backend confidence is not passed on. -/
def pipelineScore (text : List Char) (_backendConfidence : ℚ) (regionArea : ℤ) : ℚ :=
  estimate_plate_confidence text regionArea

/-- The scorer as §4.6 of the specification words it, for comparison: start
from a base term derived from `backendConfidence` (the confidence itself),
add the same three bonuses, clamp to [0, 1]. -/
def specConfidenceScore (text : List Char) (backendConfidence : ℚ) (regionArea : ℤ) : ℚ :=
  let b1 := backendConfidence
  let b2 := if 4 ≤ text.length ∧ text.length ≤ 8 then b1 + 1 / 5 else b1
  let b3 := if hasLetterChar text && hasDigitChar text then b2 + 1 / 5 else b2
  let b4 := if 2000 < regionArea then b3 + 1 / 10 else b3
  min (max b4 0) 1

/-- Counterexample to C5 as stated: for the plate text "AB12CDE" and region
area 100, the code's score is 9/10 at backend confidence 0 and at backend
confidence 1 alike — the base term is the constant 1/2, not derived from the
backend confidence — and it differs from the specification's scorer at
backend confidence 0. -/
theorem confidence_score_ignores_backend_confidence :
    pipelineScore ['A', 'B', '1', '2', 'C', 'D', 'E'] 0 100 =
        pipelineScore ['A', 'B', '1', '2', 'C', 'D', 'E'] 1 100 ∧
      pipelineScore ['A', 'B', '1', '2', 'C', 'D', 'E'] 0 100 = 9 / 10 ∧
      specConfidenceScore ['A', 'B', '1', '2', 'C', 'D', 'E'] 0 100 ≠
        pipelineScore ['A', 'B', '1', '2', 'C', 'D', 'E'] 0 100 := by
  have hl : hasLetterChar ['A', 'B', '1', '2', 'C', 'D', 'E'] = true := by decide
  have hdg : hasDigitChar ['A', 'B', '1', '2', 'C', 'D', 'E'] = true := by decide
  refine ⟨rfl, ?_, ?_⟩ <;>
    norm_num [pipelineScore, estimate_plate_confidence, specConfidenceScore, hl, hdg,
      min_def, max_def]

/-- C5 (amended): holding plate text and region area fixed, the score the
pipeline computes is constant in the backend confidence — hence trivially
monotonically non-decreasing in it — and its base term is the fixed 1/2. -/
theorem confidence_score_constant_in_backend (text : List Char) (c c' : ℚ) (a : ℤ)
    (hcc : c ≤ c') :
    pipelineScore text c a ≤ pipelineScore text c' a ∧
      pipelineScore text c a = pipelineScore text c' a :=
  ⟨le_of_eq rfl, rfl⟩

/-- Witness for the amended C5 at concrete inputs. -/
theorem confidence_score_constant_in_backend_witness :
    ((0 : ℚ) ≤ 1) ∧
      (pipelineScore ['A'] 0 0 ≤ pipelineScore ['A'] 1 0 ∧
        pipelineScore ['A'] 0 0 = pipelineScore ['A'] 1 0) :=
  ⟨by norm_num, confidence_score_constant_in_backend ['A'] 0 1 0 (by norm_num)⟩

/-! ### Exception containment (`universal_detector.detect_plates`,
`detector.enhance_plate_roi`) -/

/-- Run one generator strategy under the `try/except` of
`universal_detector.py:213-218`: an internal failure contributes nothing. -/
def runStrategy {Img : Type} (img : Img) (s : Img → Except String (List Rect)) : List Rect :=
  match s img with
  | .ok cs => cs
  | .error _ => []

/-- `UniversalPlateDetector.detect_plates` (`universal_detector.py:209-222`):
concatenate every strategy's candidates (a failing strategy contributing
nothing), remove overlapping regions, return the top 5. -/
def detect_plates {Img : Type} (strategies : List (Img → Except String (List Rect)))
    (img : Img) : List Rect :=
  (remove_overlaps ((strategies.map (runStrategy img)).flatten)).take 5

/-- `detector.enhance_plate_roi` (`detector.py:211-240`): the enhancement
body runs under `try/except`; any internal failure returns the crop as is. -/
def enhance_plate_roi {Roi : Type} (enhance : Roi → Except String Roi) (roi : Roi) : Roi :=
  match enhance roi with
  | .ok r => r
  | .error _ => roi

/-- C8: a generator strategy that raises contributes exactly an empty
candidate list — the detector's output equals the output with that strategy
replaced by an always-empty one, so the remaining strategies are still
processed — and the ROI enhancer returns the unmodified crop whenever its
body fails. -/
theorem internal_failures_contained {Img Roi : Type}
    (pre post : List (Img → Except String (List Rect)))
    (bad : Img → Except String (List Rect)) (img : Img) (e : String)
    (hbad : bad img = Except.error e)
    (enhance : Roi → Except String Roi) (roi : Roi) (e' : String)
    (henh : enhance roi = Except.error e') :
    detect_plates (pre ++ bad :: post) img =
        detect_plates (pre ++ (fun _ => Except.ok []) :: post) img ∧
      enhance_plate_roi enhance roi = roi := by
  constructor
  · have hrun : runStrategy img bad = runStrategy img (fun _ => Except.ok []) := by
      unfold runStrategy
      rw [hbad]
    simp [detect_plates, hrun]
  · unfold enhance_plate_roi
    rw [henh]

/-- Witness for C8 with one always-failing strategy and a failing enhancer. -/
theorem internal_failures_contained_witness :
    ((fun _ : Unit => (Except.error "boom" : Except String (List Rect))) () =
        Except.error "boom") ∧
      ((fun _ : Unit => (Except.error "bad" : Except String Unit)) () = Except.error "bad") ∧
      (detect_plates ([] ++ (fun _ : Unit => (Except.error "boom" : Except String (List Rect))) :: []) () =
          detect_plates ([] ++ (fun _ : Unit => (Except.ok [] : Except String (List Rect))) :: []) () ∧
        enhance_plate_roi (fun _ : Unit => (Except.error "bad" : Except String Unit)) () = ()) :=
  ⟨rfl, rfl,
    internal_failures_contained [] [] _ () "boom" rfl (fun _ => Except.error "bad") () "bad" rfl⟩

/-! ### Pipeline orchestrator (`detector.detect_and_recognize_plate`)

The entry point is modelled from after the OCR model has loaded and the
image decoded (the earlier exits report distinct failures).  The three tier
outputs (universal multi-strategy set, cascade classifier, contour-only)
enter as lists; per-region OCR enters as a function.  The result dictionary
is modelled as its literal key/value list. -/

/-- A Python value stored in a result dictionary. -/
inductive PyVal where
  | str : String → PyVal
  | num : ℚ → PyVal
  | rect : Rect → PyVal
  | none : PyVal
deriving DecidableEq

/-- The error dictionaries of `detector.py` (e.g. lines 316-321, 371-376):
`{'error': msg, 'plate': None, 'confidence': 0.0, 'processing_time': t}`. -/
def mkErrorResult (msg : String) (t : ℚ) : List (String × PyVal) :=
  [("error", PyVal.str msg), ("plate", PyVal.none), ("confidence", PyVal.num 0),
    ("processing_time", PyVal.num t)]

/-- The success dictionary built at `detector.py:350-355`:
`{'plate': ..., 'confidence': ..., 'region': ..., 'processing_time': ...}`. -/
def mkSuccessResult (plate : List Char) (conf : ℚ) (region : Rect) (t : ℚ) :
    List (String × PyVal) :=
  [("plate", PyVal.str (String.mk plate)), ("confidence", PyVal.num conf),
    ("region", PyVal.rect region), ("processing_time", PyVal.num t)]

/-- The three generator tiers of the fallback chain. -/
inductive Tier where
  | universal
  | classifier
  | contour
deriving DecidableEq

/-- Which tiers the fallback chain of `detector.py:299-311` consults: the
universal set always; the cascade classifier only when the universal set
yielded nothing; the contour generator only when both earlier tiers did. -/
def consultedTiers (univ casc : List Rect) : List Tier :=
  [Tier.universal] ++ (if univ = [] then [Tier.classifier] else []) ++
    (if univ = [] ∧ casc = [] then [Tier.contour] else [])

/-- The region list the fallback chain settles on (`detector.py:299-311`). -/
def selectRegions (univ casc cont : List Rect) : List Rect :=
  if univ.isEmpty then (if casc.isEmpty then cont else casc) else univ

/-- One iteration of the per-region OCR loop (`detector.py:330-365`): keep
the best `(text, confidence, region)` so far, `best_confidence` starting at
0; a region with no detected text contributes nothing. -/
def ocrStep (ocr : Rect → Option (List Char)) (acc : Option (List Char × ℚ × Rect) × ℚ)
    (r : Rect) : Option (List Char × ℚ × Rect) × ℚ :=
  match ocr r with
  | Option.none => acc
  | Option.some t =>
    if t.isEmpty then acc
    else
      let conf := estimate_plate_confidence t (r.w * r.h)
      if acc.2 < conf then (Option.some (t, conf, r), conf) else acc

/-- `detector.detect_and_recognize_plate` (`detector.py:299-376`) from the
tier outputs onward. -/
def detect_and_recognize_plate (univ casc cont : List Rect)
    (ocr : Rect → Option (List Char)) (t : ℚ) : List (String × PyVal) :=
  let regions := selectRegions univ casc cont
  if regions.isEmpty then mkErrorResult "No license plate detected" t
  else
    match (regions.foldl (ocrStep ocr) (Option.none, 0)).1 with
    | Option.none => mkErrorResult "No valid license plate text detected" t
    | Option.some (txt, conf, r) => mkSuccessResult txt conf r t

theorem selectRegions_isEmpty_iff (univ casc cont : List Rect) :
    (selectRegions univ casc cont).isEmpty = true ↔ univ = [] ∧ casc = [] ∧ cont = [] := by
  unfold selectRegions
  by_cases h1 : univ.isEmpty <;> by_cases h2 : casc.isEmpty <;>
    simp_all [List.isEmpty_iff]

/-- C4: the pipeline reports the no-candidates failure exactly when all
three tiers produced zero regions, and each later tier is consulted exactly
when every earlier tier yielded zero candidates. -/
theorem no_candidates_iff_all_tiers_empty (univ casc cont : List Rect)
    (ocr : Rect → Option (List Char)) (t : ℚ) :
    (detect_and_recognize_plate univ casc cont ocr t =
        mkErrorResult "No license plate detected" t ↔
      univ = [] ∧ casc = [] ∧ cont = []) ∧
      (Tier.classifier ∈ consultedTiers univ casc ↔ univ = []) ∧
      (Tier.contour ∈ consultedTiers univ casc ↔ univ = [] ∧ casc = []) := by
  refine ⟨?_, ?_, ?_⟩
  · constructor
    · intro hres
      rw [← selectRegions_isEmpty_iff univ casc cont]
      by_contra hne
      unfold detect_and_recognize_plate at hres
      rw [if_neg hne] at hres
      rcases hmatch : (List.foldl (ocrStep ocr) (Option.none, 0)
          (selectRegions univ casc cont)).1 with _ | ⟨txt, conf, r⟩
      · rw [hmatch] at hres
        simp [mkErrorResult] at hres
      · rw [hmatch] at hres
        simp [mkSuccessResult, mkErrorResult] at hres
    · intro hall
      unfold detect_and_recognize_plate
      rw [if_pos ((selectRegions_isEmpty_iff univ casc cont).mpr hall)]
  · by_cases h1 : univ = [] <;> simp [consultedTiers, h1]
  · by_cases h1 : univ = [] <;> by_cases h2 : casc = [] <;>
      simp [consultedTiers, h1, h2]

/-- Counterexample to C6 as stated: a concrete successful pipeline run (the
universal tier returns one region, OCR reads "AB12") whose result carries a
plate but no `strategyUsed` key. -/
theorem success_result_lacks_strategy_field :
    ("plate" ∈ (detect_and_recognize_plate [Rect.mk 0 0 100 40] [] []
        (fun _ => Option.some ['A', 'B', '1', '2']) 0).map Prod.fst) ∧
      ("error" ∉ (detect_and_recognize_plate [Rect.mk 0 0 100 40] [] []
        (fun _ => Option.some ['A', 'B', '1', '2']) 0).map Prod.fst) ∧
      ("strategyUsed" ∉ (detect_and_recognize_plate [Rect.mk 0 0 100 40] [] []
        (fun _ => Option.some ['A', 'B', '1', '2']) 0).map Prod.fst) := by
  have hconf : (0 : ℚ) < estimate_plate_confidence ['A', 'B', '1', '2'] 4000 := by
    have hl : hasLetterChar ['A', 'B', '1', '2'] = true := by decide
    have hdg : hasDigitChar ['A', 'B', '1', '2'] = true := by decide
    norm_num [estimate_plate_confidence, hl, hdg, min_def]
  have hrun : detect_and_recognize_plate [Rect.mk 0 0 100 40] [] []
      (fun _ => Option.some ['A', 'B', '1', '2']) 0 =
      mkSuccessResult ['A', 'B', '1', '2']
        (estimate_plate_confidence ['A', 'B', '1', '2'] 4000) (Rect.mk 0 0 100 40) 0 := by
    unfold detect_and_recognize_plate selectRegions ocrStep
    simp [hconf, mkSuccessResult]
  rw [hrun]
  refine ⟨by simp [mkSuccessResult], by simp [mkSuccessResult], by simp [mkSuccessResult]⟩

/-- C6 (amended): every successful result — one whose dictionary has no
`error` key — carries exactly the keys `plate`, `confidence`, `region` and
`processing_time`; no `strategyUsed` field exists. -/
theorem success_result_fields (univ casc cont : List Rect)
    (ocr : Rect → Option (List Char)) (t : ℚ)
    (hok : "error" ∉ (detect_and_recognize_plate univ casc cont ocr t).map Prod.fst) :
    (detect_and_recognize_plate univ casc cont ocr t).map Prod.fst =
        ["plate", "confidence", "region", "processing_time"] ∧
      "strategyUsed" ∉ (detect_and_recognize_plate univ casc cont ocr t).map Prod.fst := by
  unfold detect_and_recognize_plate at hok ⊢
  by_cases hre : (selectRegions univ casc cont).isEmpty
  · rw [if_pos hre] at hok
    simp [mkErrorResult] at hok
  · rw [if_neg hre] at hok ⊢
    rcases hmatch : (List.foldl (ocrStep ocr) (Option.none, 0)
        (selectRegions univ casc cont)).1 with _ | ⟨txt, conf, r⟩
    · rw [hmatch] at hok
      simp [mkErrorResult] at hok
    · refine ⟨by simp [mkSuccessResult], by simp [mkSuccessResult]⟩

/-- Witness for the amended C6 at the concrete successful run of the
counterexample input. -/
theorem success_result_fields_witness :
    ("error" ∉ (detect_and_recognize_plate [Rect.mk 0 0 100 40] [] []
        (fun _ => Option.some ['A', 'B', '1', '2']) 0).map Prod.fst) ∧
      ((detect_and_recognize_plate [Rect.mk 0 0 100 40] [] []
          (fun _ => Option.some ['A', 'B', '1', '2']) 0).map Prod.fst =
          ["plate", "confidence", "region", "processing_time"] ∧
        "strategyUsed" ∉ (detect_and_recognize_plate [Rect.mk 0 0 100 40] [] []
          (fun _ => Option.some ['A', 'B', '1', '2']) 0).map Prod.fst) :=
  ⟨success_result_lacks_strategy_field.2.1,
    success_result_fields [Rect.mk 0 0 100 40] [] []
      (fun _ => Option.some ['A', 'B', '1', '2']) 0 success_result_lacks_strategy_field.2.1⟩

/-! ### Per-region text extraction (`ocr_model.infer_plate_text`)

The OCR backend's raw output for one region enters as the list of
`(text, confidence)` spans of `model.reader.readtext`; the text is the
post-NFKD reading as in `validate_plate_text`. -/

/-- One iteration of the best-span loop (`ocr_model.py:196-202`):
`if is_valid and confidence > best_confidence and confidence > 0.5`. -/
def inferStep (acc : List Char × ℚ) (span : List Char × ℚ) : List Char × ℚ :=
  let v := validate_plate_text span.1
  if v.1 && decide (acc.2 < span.2) && decide ((1 : ℚ) / 2 < span.2) then (v.2, span.2) else acc

/-- `ocr_model.infer_plate_text` (`ocr_model.py:167-213`) from the backend
spans onward: pick the best validated span, then return it only if
`best_text` is non-empty and `best_confidence > 0.5`. -/
def infer_plate_text (spans : List (List Char × ℚ)) : Option (List Char) :=
  let best := spans.foldl inferStep ([], 0)
  if ¬best.1.isEmpty ∧ (1 : ℚ) / 2 < best.2 then Option.some best.1 else Option.none

/-- A span that fails validation or has confidence at most 0.5 leaves the
best-so-far untouched. -/
theorem inferStep_id {acc : List Char × ℚ} {s : List Char × ℚ}
    (h : (validate_plate_text s.1).1 = false ∨ s.2 ≤ 1 / 2) : inferStep acc s = acc := by
  unfold inferStep
  dsimp only
  rcases h with h | h
  · rw [h]
    simp
  · rw [decide_eq_false (not_lt.mpr h)]
    simp

theorem foldl_inferStep_id {spans : List (List Char × ℚ)} (acc : List Char × ℚ)
    (h : ∀ s ∈ spans, (validate_plate_text s.1).1 = false ∨ s.2 ≤ 1 / 2) :
    spans.foldl inferStep acc = acc := by
  induction spans generalizing acc with
  | nil => rfl
  | cons s ss ih =>
    rw [List.foldl_cons, inferStep_id (h s (List.mem_cons_self s ss))]
    exact ih acc fun x hx => h x (List.mem_cons_of_mem s hx)

/-- C10: the extractor returns a plate text only when some OCR span both
passes validation and has confidence strictly above 0.5; when every span
fails validation or has confidence at most 0.5, it returns no text. -/
theorem infer_text_requires_valid_confident_span (spans : List (List Char × ℚ)) :
    ((infer_plate_text spans).isSome →
        ∃ s ∈ spans, (validate_plate_text s.1).1 = true ∧ (1 : ℚ) / 2 < s.2) ∧
      ((∀ s ∈ spans, (validate_plate_text s.1).1 = false ∨ s.2 ≤ 1 / 2) →
        infer_plate_text spans = Option.none) := by
  have hnone : (∀ s ∈ spans, (validate_plate_text s.1).1 = false ∨ s.2 ≤ 1 / 2) →
      infer_plate_text spans = Option.none := by
    intro h
    unfold infer_plate_text
    rw [foldl_inferStep_id _ h]
    simp
  constructor
  · intro hs
    by_contra hne
    push_neg at hne
    have h' : ∀ s ∈ spans, (validate_plate_text s.1).1 = false ∨ s.2 ≤ 1 / 2 := by
      intro s hsm
      by_cases hv : (validate_plate_text s.1).1 = true
      · exact Or.inr (hne s hsm hv)
      · exact Or.inl (by simpa using hv)
    rw [hnone h'] at hs
    simp at hs
  · exact hnone

/-- Witness for C10: one validated span with confidence 2/5 ≤ 0.5 yields no
text. -/
theorem infer_text_requires_valid_confident_span_witness :
    (∀ s ∈ [(['A', 'B', '1', '2', 'C', 'D'], (2 : ℚ) / 5)],
        (validate_plate_text s.1).1 = false ∨ s.2 ≤ 1 / 2) ∧
      infer_plate_text [(['A', 'B', '1', '2', 'C', 'D'], (2 : ℚ) / 5)] = Option.none :=
  ⟨fun s hs => by
      rw [List.mem_singleton] at hs
      subst hs
      exact Or.inr (by norm_num),
    (infer_text_requires_valid_confident_span _).2 fun s hs => by
      rw [List.mem_singleton] at hs
      subst hs
      exact Or.inr (by norm_num)⟩

end ATCS
